import Mathlib

/-!
Verification of the numeric simulation engine of the Big-Data-Math-Pro
repository (`src/components/UniversalSimulator.tsx`, schema ingestion in
`src/unnamed/part_001`).

The engine is shallowly embedded.  JavaScript numbers are modelled by `JSNum`:
a rational for every finite double, plus `nan`, `inf` and `ninf`; arithmetic on
`JSNum` follows IEEE-754 special-value rules as JavaScript exposes them
(`Infinity - Infinity = NaN`, `0 * Infinity = NaN`, `finite / Infinity = 0`,
`NaN` absorbing, `Math.sign` returning `NaN` on `NaN`, `NaN !== NaN`, ...).
JavaScript objects used as records (`variables`, `contextVars`, `DataPoint`)
are insertion-ordered association lists; property assignment (`objSet`)
overwrites the first binding of the key in place or appends a fresh one, and
property read (`objGet`) returns the first binding, exactly as JS objects
behave (keys are unique in a real JS object).

The dynamically compiled formula (`new Function(...keys, schema.jsFormula)`
invoked on the context values) is embedded as its denotation: a function from
the context object to `Option JSValue`, where `none` models a thrown exception
(of construction or of the call) and `JSValue` distinguishes the three shapes
the engine inspects: a number, a non-null object, or anything else
(`typeof resultRaw` neither `'object'`-non-null nor `'number'`).
-/

/-- JavaScript number: finite value (as a rational), `NaN`, `Infinity`
or `-Infinity`. -/
inductive JSNum where
  | fin (q : ℚ)
  | nan
  | inf
  | ninf
deriving DecidableEq, Repr

namespace JSNum

/-- `Number.isNaN` / the `isNaN(x)` test used at line 177 of the source. -/
def isNaN : JSNum → Bool
  | nan => true
  | _ => false

/-- JS unary minus. -/
def neg : JSNum → JSNum
  | fin q => fin (-q)
  | nan => nan
  | inf => ninf
  | ninf => inf

/-- JS addition with IEEE special values. -/
def add : JSNum → JSNum → JSNum
  | nan, _ => nan
  | _, nan => nan
  | fin a, fin b => fin (a + b)
  | fin _, inf => inf
  | inf, fin _ => inf
  | fin _, ninf => ninf
  | ninf, fin _ => ninf
  | inf, inf => inf
  | ninf, ninf => ninf
  | inf, ninf => nan
  | ninf, inf => nan

/-- JS subtraction. -/
def sub (a b : JSNum) : JSNum := a.add b.neg

/-- JS multiplication (`0 * Infinity = NaN`). -/
def mul : JSNum → JSNum → JSNum
  | nan, _ => nan
  | _, nan => nan
  | fin a, fin b => fin (a * b)
  | fin a, inf => if 0 < a then inf else if a < 0 then ninf else nan
  | inf, fin a => if 0 < a then inf else if a < 0 then ninf else nan
  | fin a, ninf => if 0 < a then ninf else if a < 0 then inf else nan
  | ninf, fin a => if 0 < a then ninf else if a < 0 then inf else nan
  | inf, inf => inf
  | ninf, ninf => inf
  | inf, ninf => ninf
  | ninf, inf => ninf

/-- JS division (`x / 0` gives a signed infinity, `0 / 0 = NaN`,
`finite / Infinity = 0`, `Infinity / Infinity = NaN`). -/
def div : JSNum → JSNum → JSNum
  | nan, _ => nan
  | _, nan => nan
  | fin a, fin b =>
      if b = 0 then (if a = 0 then nan else if 0 < a then inf else ninf)
      else fin (a / b)
  | fin _, inf => fin 0
  | fin _, ninf => fin 0
  | inf, fin b => if 0 ≤ b then inf else ninf
  | ninf, fin b => if 0 ≤ b then ninf else inf
  | _, _ => nan

/-- `Math.abs`. -/
def abs : JSNum → JSNum
  | fin a => fin |a|
  | nan => nan
  | inf => inf
  | ninf => inf

/-- JS `<` comparison as a Bool (`NaN` compares false against everything). -/
def lt : JSNum → JSNum → Bool
  | fin a, fin b => decide (a < b)
  | ninf, fin _ => true
  | fin _, inf => true
  | ninf, inf => true
  | _, _ => false

end JSNum

/-- Result of `Math.sign`: positive, negative, zero, or `NaN`. -/
inductive JSign where
  | pos
  | neg
  | zero
  | snan
deriving DecidableEq, Repr

/-- `Math.sign` on a `JSNum`. -/
def JSNum.sign : JSNum → JSign
  | fin a => if 0 < a then .pos else if a < 0 then .neg else .zero
  | nan => .snan
  | inf => .pos
  | ninf => .neg

/-- JS strict inequality `!==` between two `Math.sign` results: `NaN` is
unequal to everything, itself included. -/
def jsignNe : JSign → JSign → Bool
  | .snan, _ => true
  | _, .snan => true
  | a, b => decide (a ≠ b)

/-- `parseFloat((q).toFixed(2))` on a finite value: round to 2 decimals.
`round` rounds ties up, matching `toFixed` on the exactly representable
inputs used here. -/
def round2q (q : ℚ) : ℚ := ((round (q * 100) : ℤ) : ℚ) / 100

/-- `parseFloat((q).toFixed(4))`: round to 4 decimals. -/
def round4q (q : ℚ) : ℚ := ((round (q * 10000) : ℤ) : ℚ) / 10000

/-- `parseFloat(x.toFixed(2))` on a `JSNum`: `NaN` and the infinities are
mapped to themselves (`"NaN"`, `"Infinity"` parse back). -/
def JSNum.round2 : JSNum → JSNum
  | fin q => fin (round2q q)
  | x => x

/-- `parseFloat(x.toFixed(4))` on a `JSNum`. -/
def JSNum.round4 : JSNum → JSNum
  | fin q => fin (round4q q)
  | x => x

/-- The value returned by one invocation of the compiled formula, as far as
the engine inspects it: a number, a non-null object (its own enumerable keys
with their values already coerced by `Number(...)`), or any other value
(string, `undefined`, `null`, boolean, ...). -/
inductive JSValue where
  | num (v : JSNum)
  | obj (fields : List (String × JSNum))
  | other
deriving DecidableEq, Repr

/-- A JS object holding the current numeric variable values
(`variables` / `contextVars`): insertion-ordered association list. -/
abbrev Binding := List (String × ℚ)

/-- One sampled `DataPoint`: a JS object from symbol to number. -/
abbrev DataPoint := List (String × JSNum)

/-- JS property read `m[k]`: first binding of the key, if any. -/
def objGet {α : Type} (m : List (String × α)) (k : String) : Option α :=
  (m.find? (fun p => decide (p.1 = k))).map (fun p => p.2)

/-- JS property write `m[k] = v`: overwrite the binding of `k` in place, or
append a fresh one. -/
def objSet {α : Type} : List (String × α) → String → α → List (String × α)
  | [], k, v => [(k, v)]
  | p :: rest, k, v => if p.1 = k then (k, v) :: rest else p :: objSet rest k v

/-- `Number(p[k])` as the intersection pass performs it: an absent property is
`undefined`, which coerces to `NaN`. -/
def getNum (p : DataPoint) (k : String) : JSNum := (objGet p k).getD JSNum.nan

/-- `independentVariables` entry of the schema.  `min`/`max` are `Option`
because the engine checks `typeof v === 'number'` before using them. -/
structure VariableDef where
  name : String
  symbol : String
  min : Option ℚ
  max : Option ℚ
  default : ℚ
  step : ℚ
deriving DecidableEq, Repr

/-- `outputs` entry of the schema (the engine reads only `symbol`;
`name`, `unit` and `color` are presentation data). -/
structure OutputVariable where
  name : String
  symbol : String
deriving DecidableEq, Repr

/-- The semantics of one invocation of
`new Function(...keys, jsFormula)(...values)`: `none` models a thrown
exception (either of construction or of the call). -/
abbrev Formula := Binding → Option JSValue

/-- The parts of `SimulationSchema` that the numeric engine reads.  The
formula string is embedded by its denotation `jsFormula`.  Both list fields
are `Option` because the engine guards them (`!schema.independentVariables`,
`schema.outputs || []`). -/
structure SimulationSchema where
  independentVariables : Option (List VariableDef)
  outputs : Option (List OutputVariable)
  jsFormula : Formula

/-- `dataCount > 0 ? dataCount : 100` (line 116). -/
def safeCount (n : ℕ) : ℕ := if 0 < n then n else 100

/-- `typeof primaryVar.min === 'number' ? primaryVar.min : -10` (line 113). -/
def minOf (pv : VariableDef) : ℚ := pv.min.getD (-10)

/-- `typeof primaryVar.max === 'number' ? primaryVar.max : 10` (line 114). -/
def maxOf (pv : VariableDef) : ℚ := pv.max.getD 10

/-- `step = (maxVal - minVal) / safeDataCount` (line 117). -/
def stepOf (pv : VariableDef) (n : ℕ) : ℚ := (maxOf pv - minOf pv) / (safeCount n : ℚ)

/-- `currentX = parseFloat((minVal + (i * step)).toFixed(2))` (line 120). -/
def sampleX (pv : VariableDef) (n i : ℕ) : ℚ := round2q (minOf pv + (i : ℚ) * stepOf pv n)

/-- `contextVars = { ...variables, [primaryVar.symbol]: currentX }` (line 121). -/
def sampleCtx (b : Binding) (pv : VariableDef) (n i : ℕ) : Binding :=
  objSet b pv.symbol (sampleX pv n i)

/-- `outs[0]?.symbol || 'y'` (line 140): the key a bare numeric result is
stored under.  Note that a declared first output whose `symbol` is the empty
string is falsy in JS and also falls back to `'y'`. -/
def numTargetSym : List OutputVariable → String
  | [] => "y"
  | o :: _ => if o.symbol = "" then "y" else o.symbol

/-- `point = { [primaryVar.symbol]: currentX, ...contextVars }`
(lines 130-133). -/
def mkPoint (sym : String) (x : ℚ) (ctx : Binding) : DataPoint :=
  ctx.foldl (fun pt p => objSet pt p.1 (JSNum.fin p.2)) [(sym, JSNum.fin x)]

/-- Merging the formula result into the point (lines 135-142): every own key
of an object result is stored rounded to 4 decimals; a bare number is stored
under `numTargetSym` rounded to 4 decimals; any other result shape adds
nothing. -/
def applyResult (outs : List OutputVariable) (pt : DataPoint) : JSValue → DataPoint
  | .obj fields => fields.foldl (fun p f => objSet p f.1 f.2.round4) pt
  | .num v => objSet pt (numTargetSym outs) v.round4
  | .other => pt

/-- One iteration of the sampling loop (lines 119-147) for index `i`:
`none` when the formula evaluation threw (the `catch` branch skips the
point), otherwise the merged `DataPoint`. -/
def sampleStep (s : SimulationSchema) (b : Binding) (pv : VariableDef) (n i : ℕ) :
    Option DataPoint :=
  match s.jsFormula (sampleCtx b pv n i) with
  | none => none
  | some r =>
      some (applyResult (s.outputs.getD []) (mkPoint pv.symbol (sampleX pv n i) (sampleCtx b pv n i)) r)

/-- The data-generation engine (lines 103-151): the produced dataset, the
resolved primary variable and the resolved output list. -/
def generatedData (s : SimulationSchema) (b : Binding) (n : ℕ) :
    List DataPoint × Option VariableDef × List OutputVariable :=
  match s.independentVariables with
  | none => ([], none, [])
  | some [] => ([], none, [])
  | some (pv :: _) =>
      ((List.range (safeCount n + 1)).filterMap (sampleStep s b pv n), some pv,
        s.outputs.getD [])

/-- An intersection marker (lines 189-194). -/
structure Marker where
  x : JSNum
  y : JSNum
  label : String
  color : String
deriving DecidableEq, Repr

/-- The body of the innermost intersection loop (lines 164-196) for one
segment `(p1, p2)` and one pair of series symbols: `none` when the segment is
skipped, `some` when a marker is pushed. -/
def segMarker (pSym symA symB : String) (p1 p2 : DataPoint) : Option Marker :=
  let x1 := getNum p1 pSym
  let x2 := getNum p2 pSym
  let yA1 := getNum p1 symA
  let yB1 := getNum p1 symB
  let yA2 := getNum p2 symA
  let yB2 := getNum p2 symB
  if yA1.isNaN || yB1.isNaN || yA2.isNaN || yB2.isNaN then none
  else
    let diff1 := yA1.sub yB1
    let diff2 := yA2.sub yB2
    if jsignNe diff1.sign diff2.sign && diff1.abs.lt (JSNum.fin 1000) then
      let fraction := diff1.abs.div (diff1.abs.add diff2.abs)
      some ⟨(x1.add (fraction.mul (x2.sub x1))).round2,
            (yA1.add (fraction.mul (yA2.sub yA1))).round2,
            "Cruce", "#EF4444"⟩
    else none

/-- All ordered pairs `(activeOutputs[i], activeOutputs[j])` with `i < j`,
in loop order (lines 159-162). -/
def outPairs : List OutputVariable → List (OutputVariable × OutputVariable)
  | [] => []
  | o :: rest => (rest.map (fun o2 => (o, o2))) ++ outPairs rest

/-- The intersection-detection engine (lines 154-200). -/
def intersections (data : List DataPoint) (outs : List OutputVariable)
    (hidden : List String) (pvOpt : Option VariableDef) : List Marker :=
  match pvOpt with
  | none => []
  | some pv =>
      if data = [] ∨ outs.length < 2 then []
      else
        let active := outs.filter (fun o => !(hidden.contains o.symbol))
        (outPairs active).flatMap (fun pr =>
          (data.zip data.tail).filterMap (fun pq =>
            segMarker pv.symbol pr.1.symbol pr.2.symbol pq.1 pq.2))

/-- One full engine run: dataset plus intersection list, as a pure function of
schema, binding, resolution and the hidden-line set. -/
def runEngine (s : SimulationSchema) (b : Binding) (n : ℕ) (hidden : List String) :
    List DataPoint × List Marker :=
  let out := generatedData s b n
  (out.1, intersections out.1 out.2.2 hidden out.2.1)

/-- Substring test (`String.prototype.includes`). -/
def startsWithChars : List Char → List Char → Bool
  | [], _ => true
  | _ :: _, [] => false
  | p :: ps, c :: cs => (p == c) && startsWithChars ps cs

/-- `text` has `pat` as a contiguous substring. -/
def hasInfixChars (pat : List Char) : List Char → Bool
  | [] => startsWithChars pat []
  | c :: cs => startsWithChars pat (c :: cs) || hasInfixChars pat cs

/-- `s.includes(pat)`. -/
def hasSubstr (pat s : String) : Bool := hasInfixChars pat.toList s.toList

/-- Schema-ingestion fixup of the formula string
(`src/unnamed/part_001`, lines 160-161):
`if (!parsed.jsFormula) parsed.jsFormula = "return 0;";`
`if (!parsed.jsFormula.includes("return")) parsed.jsFormula = "return " + parsed.jsFormula;`
A missing (or empty, hence falsy) formula becomes `"return 0;"`; a non-empty
formula lacking the substring `"return"` is prefixed with `"return "`. -/
def fixJsFormula (raw : Option String) : String :=
  let f := match raw with
    | none => "return 0;"
    | some s => if s = "" then "return 0;" else s
  if hasSubstr "return" f then f else "return " ++ f

/-! ### Concrete inputs used to instantiate the general theorems -/

/-- The spec's two-linear-outputs scenario: outputs `A` and `B`, formula
`return { A: 2*x, B: -2*x+10 };`, sweep `x` over `[0, 10]`. -/
def twoLinesSchema : SimulationSchema where
  independentVariables := some [⟨"x", "x", some 0, some 10, 0, 1⟩]
  outputs := some [⟨"Linea A", "A"⟩, ⟨"Linea B", "B"⟩]
  jsFormula := fun ctx =>
    match objGet ctx "x" with
    | some q => some (JSValue.obj [("A", JSNum.fin (2 * q)), ("B", JSNum.fin (-2 * q + 10))])
    | none => none

/-- A schema whose sweep interval is the single point `0` (`min = max = 0`,
a valid declaration since `min ≤ default ≤ max`), with a constant numeric
formula. -/
def flatSchema : SimulationSchema where
  independentVariables := some [⟨"x", "x", some 0, some 0, 0, 1⟩]
  outputs := some [⟨"f", "A"⟩]
  jsFormula := fun _ => some (JSValue.num (JSNum.fin 0))

/-- A schema whose formula throws on every invocation. -/
def throwSchema : SimulationSchema where
  independentVariables := some [⟨"x", "x", some 0, some 10, 0, 1⟩]
  outputs := some [⟨"f", "A"⟩]
  jsFormula := fun _ => none

/-- A schema with no independent variables at all. -/
def noVarSchema : SimulationSchema where
  independentVariables := none
  outputs := some [⟨"f", "A"⟩]
  jsFormula := fun _ => some (JSValue.num (JSNum.fin 1))

/-- A schema whose formula returns a string (neither number nor object). -/
def strSchema : SimulationSchema where
  independentVariables := some [⟨"x", "x", some 0, some 10, 0, 1⟩]
  outputs := some [⟨"Salida", "F"⟩]
  jsFormula := fun _ => some JSValue.other

/-- A schema declaring one output whose symbol is the empty string, with a
numeric-result formula. -/
def emptySymSchema : SimulationSchema where
  independentVariables := some [⟨"x", "x", some 0, some 0, 0, 1⟩]
  outputs := some [⟨"Out", ""⟩]
  jsFormula := fun _ => some (JSValue.num (JSNum.fin 7))

/-- A schema declaring no outputs, with a numeric-result formula. -/
def noOutSchema : SimulationSchema where
  independentVariables := some [⟨"x", "x", some 0, some 0, 0, 1⟩]
  outputs := some []
  jsFormula := fun _ => some (JSValue.num (JSNum.fin 7))

/-- First point of a dataset whose second point holds an infinite value. -/
def infPoint1 : DataPoint := [("x", JSNum.fin 0), ("A", JSNum.fin 0), ("B", JSNum.fin 1)]

/-- Second point: series `A` is `Infinity` here (a non-finite, non-`NaN`
value), produced e.g. by a formula evaluating `1/0`. -/
def infPoint2 : DataPoint := [("x", JSNum.fin 1), ("A", JSNum.inf), ("B", JSNum.fin 0)]

/-- A point whose series `A` value is `NaN`. -/
def nanPoint1 : DataPoint := [("x", JSNum.fin 0), ("A", JSNum.nan), ("B", JSNum.fin 1)]

/-- A well-formed neighbour point. -/
def nanPoint2 : DataPoint := [("x", JSNum.fin 1), ("A", JSNum.fin 2), ("B", JSNum.fin 0)]

/-- The sweep variable used by the hand-built datasets. -/
def xVar : VariableDef := ⟨"x", "x", some 0, some 1, 0, 1⟩

/-! ### Properties of the JS object operations -/

theorem objGet_nil {α : Type} (k : String) : objGet ([] : List (String × α)) k = none := rfl

theorem objGet_cons {α : Type} (p : String × α) (rest : List (String × α)) (k : String) :
    objGet (p :: rest) k = if p.1 = k then some p.2 else objGet rest k := by
  by_cases h : p.1 = k <;> simp [objGet, List.find?_cons, h]

theorem objSet_nil {α : Type} (k : String) (v : α) : objSet ([] : List (String × α)) k v = [(k, v)] := rfl

theorem objSet_cons {α : Type} (p : String × α) (rest : List (String × α)) (k : String) (v : α) :
    objSet (p :: rest) k v = if p.1 = k then (k, v) :: rest else p :: objSet rest k v := rfl

theorem objGet_objSet_self {α : Type} (m : List (String × α)) (k : String) (v : α) :
    objGet (objSet m k v) k = some v := by
  induction m with
  | nil => simp [objSet_nil, objGet_cons]
  | cons p rest ih =>
      by_cases h : p.1 = k
      · simp [objSet_cons, h, objGet_cons]
      · simp [objSet_cons, h, objGet_cons, ih]

theorem objGet_objSet_ne {α : Type} (m : List (String × α)) (k s : String) (v : α)
    (h : s ≠ k) : objGet (objSet m k v) s = objGet m s := by
  induction m with
  | nil => simp [objSet_nil, objGet_cons, objGet_nil, Ne.symm h]
  | cons p rest ih =>
      by_cases hp : p.1 = k
      · rw [objSet_cons, if_pos hp, objGet_cons, objGet_cons, hp,
          if_neg (Ne.symm h), if_neg (Ne.symm h)]
      · rw [objSet_cons, if_neg hp, objGet_cons, objGet_cons, ih]

theorem mem_objSet_keys {α : Type} (m : List (String × α)) (k : String) (v : α)
    (p : String × α) (hp : p ∈ objSet m k v) : p.1 = k ∨ p.1 ∈ m.map Prod.fst := by
  induction m with
  | nil => rw [objSet_nil] at hp; simp at hp; simp [hp]
  | cons q rest ih =>
      by_cases hq : q.1 = k
      · rw [objSet_cons, if_pos hq] at hp
        rcases List.mem_cons.mp hp with hp | hp
        · left; rw [hp]
        · right; exact List.mem_map.mpr ⟨p, List.mem_cons_of_mem q hp, rfl⟩
      · rw [objSet_cons, if_neg hq] at hp
        rcases List.mem_cons.mp hp with hp | hp
        · right; simp [hp]
        · rcases ih hp with h | h
          · exact Or.inl h
          · right; simp at h ⊢; tauto

theorem objSet_keys_nodup {α : Type} (m : List (String × α)) (k : String) (v : α)
    (hn : (m.map Prod.fst).Nodup) : ((objSet m k v).map Prod.fst).Nodup := by
  induction m with
  | nil => simp [objSet_nil]
  | cons q rest ih =>
      simp only [List.map_cons, List.nodup_cons] at hn
      by_cases hq : q.1 = k
      · rw [objSet_cons, if_pos hq]
        simp only [List.map_cons, List.nodup_cons]
        exact ⟨hq ▸ hn.1, hn.2⟩
      · rw [objSet_cons, if_neg hq]
        simp only [List.map_cons, List.nodup_cons]
        refine ⟨fun hmem => ?_, ih hn.2⟩
        rcases List.mem_map.mp hmem with ⟨p, hp, hfst⟩
        rcases mem_objSet_keys rest k v p hp with h | h
        · exact hq (hfst ▸ h : q.1 = k)
        · exact hn.1 (hfst ▸ h)

theorem objSet_forced {α : Type} (m : List (String × α)) (k : String) (v : α)
    (hn : (m.map Prod.fst).Nodup) :
    ∀ p ∈ objSet m k v, p.1 = k → p.2 = v := by
  induction m with
  | nil =>
      intro p hp _
      rw [objSet_nil] at hp; simp at hp; rw [hp]
  | cons q rest ih =>
      intro p hp hk
      simp only [List.map_cons, List.nodup_cons] at hn
      by_cases hq : q.1 = k
      · rw [objSet_cons, if_pos hq] at hp
        rcases List.mem_cons.mp hp with hp | hp
        · rw [hp]
        · exact absurd (List.mem_map.mpr ⟨p, hp, hk.trans hq.symm⟩) hn.1
      · rw [objSet_cons, if_neg hq] at hp
        rcases List.mem_cons.mp hp with hp | hp
        · exact absurd (hp ▸ hk : q.1 = k) hq
        · exact ih hn.2 p hp hk

theorem objGet_eq_none_iff {α : Type} (m : List (String × α)) (k : String) :
    objGet m k = none ↔ ∀ p ∈ m, p.1 ≠ k := by
  simp [objGet, List.find?_eq_none]

/-! ### Folding property writes -/

theorem objGet_foldl_keys_ne {α : Type} (key : α → String) (val : α → JSNum)
    (l : List α) (k : String) :
    ∀ acc : DataPoint, (∀ p ∈ l, key p ≠ k) →
      objGet (l.foldl (fun pt p => objSet pt (key p) (val p)) acc) k = objGet acc k := by
  induction l with
  | nil => intro acc _; rfl
  | cons p rest ih =>
      intro acc h
      rw [List.foldl_cons, ih _ (fun q hq => h q (List.mem_cons_of_mem p hq)),
        objGet_objSet_ne _ _ _ _ (Ne.symm (h p (List.mem_cons_self p rest)))]

theorem objGet_foldl_forced {α : Type} (key : α → String) (val : α → JSNum)
    (l : List α) (k : String) (w : JSNum) :
    ∀ acc : DataPoint, objGet acc k = some w → (∀ p ∈ l, key p = k → val p = w) →
      objGet (l.foldl (fun pt p => objSet pt (key p) (val p)) acc) k = some w := by
  induction l with
  | nil => intro acc hacc _; exact hacc
  | cons p rest ih =>
      intro acc hacc h
      rw [List.foldl_cons]
      refine ih _ ?_ (fun q hq => h q (List.mem_cons_of_mem p hq))
      by_cases hp : key p = k
      · rw [hp, objGet_objSet_self, h p (List.mem_cons_self p rest) hp]
      · rw [objGet_objSet_ne _ _ _ _ (Ne.symm hp), hacc]

theorem objGet_foldl_mem (l : Binding) (k : String) (q : ℚ) :
    ∀ acc : DataPoint, objGet l k = some q → (l.map Prod.fst).Nodup →
      objGet (l.foldl (fun pt p => objSet pt p.1 (JSNum.fin p.2)) acc) k =
        some (JSNum.fin q) := by
  induction l with
  | nil => intro acc h _; simp [objGet_nil] at h
  | cons p rest ih =>
      intro acc hl hn
      simp only [List.map_cons, List.nodup_cons] at hn
      rw [objGet_cons] at hl
      rw [List.foldl_cons]
      by_cases hp : p.1 = k
      · rw [if_pos hp] at hl
        have hq : JSNum.fin p.2 = JSNum.fin q := by rw [Option.some_inj.mp hl]
        rw [objGet_foldl_keys_ne Prod.fst (fun r => JSNum.fin r.2) rest k _
            (fun r hr hrk => hn.1 (List.mem_map.mpr ⟨r, hr, hrk.trans hp.symm⟩)),
          hp, objGet_objSet_self, hq]
      · rw [if_neg hp] at hl
        exact ih _ hl hn.2

/-! ### Lookups on the built sample point -/

theorem objGet_mkPoint_self (sym : String) (x : ℚ) (ctx : Binding)
    (h : ∀ p ∈ ctx, p.1 = sym → p.2 = x) :
    objGet (mkPoint sym x ctx) sym = some (JSNum.fin x) := by
  unfold mkPoint
  refine objGet_foldl_forced Prod.fst (fun p => JSNum.fin p.2) ctx sym (JSNum.fin x) _ ?_ ?_
  · simp [objGet_cons]
  · intro p hp hk
    simp only
    rw [h p hp hk]

theorem objGet_mkPoint_ne (sym : String) (x : ℚ) (ctx : Binding) (k : String) (q : ℚ)
    (_hk : k ≠ sym) (hget : objGet ctx k = some q) (hn : (ctx.map Prod.fst).Nodup) :
    objGet (mkPoint sym x ctx) k = some (JSNum.fin q) :=
  objGet_foldl_mem ctx k q _ hget hn

theorem objGet_mkPoint_none (sym : String) (x : ℚ) (ctx : Binding) (k : String)
    (hk : k ≠ sym) (hget : objGet ctx k = none) :
    objGet (mkPoint sym x ctx) k = none := by
  unfold mkPoint
  rw [objGet_foldl_keys_ne Prod.fst (fun p => JSNum.fin p.2) ctx k _
      ((objGet_eq_none_iff ctx k).mp hget),
    objGet_cons, if_neg (fun h => hk h.symm), objGet_nil]

/-! ### Lookups after merging the formula result -/

theorem objGet_applyResult_ne (outs : List OutputVariable) (pt : DataPoint)
    (r : JSValue) (k : String)
    (hobj : ∀ fields, r = JSValue.obj fields → ∀ f ∈ fields, f.1 ≠ k)
    (hnum : ∀ v, r = JSValue.num v → numTargetSym outs ≠ k) :
    objGet (applyResult outs pt r) k = objGet pt k := by
  cases r with
  | obj fields =>
      exact objGet_foldl_keys_ne Prod.fst (fun f => f.2.round4) fields k pt
        (hobj fields rfl)
  | num v => exact objGet_objSet_ne _ _ _ _ (Ne.symm (hnum v rfl))
  | other => rfl

/-! ### Properties of the sampling loop -/

theorem sampleStep_isSome (s : SimulationSchema) (b : Binding) (pv : VariableDef)
    (n i : ℕ) :
    (sampleStep s b pv n i).isSome = (s.jsFormula (sampleCtx b pv n i)).isSome := by
  unfold sampleStep
  cases s.jsFormula (sampleCtx b pv n i) <;> rfl

theorem getNum_sampleStep (s : SimulationSchema) (b : Binding) (pv : VariableDef)
    (n i : ℕ) (p : DataPoint)
    (hb : (b.map Prod.fst).Nodup)
    (hobj : ∀ ctx fields, s.jsFormula ctx = some (JSValue.obj fields) →
      ∀ f ∈ fields, f.1 ≠ pv.symbol)
    (hnum : numTargetSym (s.outputs.getD []) ≠ pv.symbol)
    (h : sampleStep s b pv n i = some p) :
    getNum p pv.symbol = JSNum.fin (sampleX pv n i) := by
  unfold sampleStep at h
  cases hr : s.jsFormula (sampleCtx b pv n i) with
  | none => rw [hr] at h; exact absurd h (by simp)
  | some r =>
      rw [hr] at h
      have hp : p = applyResult (s.outputs.getD [])
          (mkPoint pv.symbol (sampleX pv n i) (sampleCtx b pv n i)) r :=
        (Option.some_inj.mp h).symm
      have hforced : ∀ q ∈ sampleCtx b pv n i, q.1 = pv.symbol → q.2 = sampleX pv n i :=
        objSet_forced b pv.symbol (sampleX pv n i) hb
      rw [hp]
      unfold getNum
      rw [objGet_applyResult_ne _ _ _ _
          (fun fields hf => hobj _ fields (by rw [hr, hf]))
          (fun v _ => hnum),
        objGet_mkPoint_self _ _ _ hforced]
      rfl

/-! ### Arithmetic facts about the 2-decimal rounding of the sweep values -/

theorem round2q_lt_round2q (a b : ℚ) (h : a + 1 / 100 ≤ b) : round2q a < round2q b := by
  have hint : round (a * 100) + 1 ≤ round (b * 100) := by
    have h1 : round (a * 100 + (1 : ℤ)) = round (a * 100) + 1 := round_add_int _ 1
    have h2 : round (a * 100 + (1 : ℤ)) ≤ round (b * 100) := by
      rw [round_eq, round_eq]
      refine Int.floor_le_floor ?_
      push_cast
      linarith
    omega
  have hcast : ((round (a * 100) : ℤ) : ℚ) < ((round (b * 100) : ℤ) : ℚ) := by
    exact_mod_cast hint
  unfold round2q
  linarith

theorem sampleX_lt_sampleX (pv : VariableDef) (n i j : ℕ)
    (hij : i < j) (hstep : 1 / 100 ≤ stepOf pv n) :
    sampleX pv n i < sampleX pv n j := by
  unfold sampleX
  refine round2q_lt_round2q _ _ ?_
  have hcast : (i : ℚ) + 1 ≤ (j : ℚ) := by exact_mod_cast hij
  nlinarith [hstep, hcast]

/-! ### Generic list facts -/

theorem pairwiseFilterMapIntro {α β : Type} (f : α → Option β) (R : β → β → Prop) :
    ∀ l : List α,
      List.Pairwise (fun a b => ∀ x, f a = some x → ∀ y, f b = some y → R x y) l →
      List.Pairwise R (l.filterMap f) := by
  intro l hl
  induction l with
  | nil => simp
  | cons a rest ih =>
      rcases List.pairwise_cons.mp hl with ⟨ha, hrest⟩
      rw [List.filterMap_cons]
      cases hfa : f a with
      | none => exact ih hrest
      | some x =>
          refine List.pairwise_cons.mpr ⟨?_, ih hrest⟩
          intro y hy
          rcases List.mem_filterMap.mp hy with ⟨c, hc, hfc⟩
          exact ha c hc x hfa y hfc

theorem lengthFilterMapEqFilter {α β : Type} (f : α → Option β) :
    ∀ l : List α, (l.filterMap f).length = (l.filter (fun a => (f a).isSome)).length := by
  intro l
  induction l with
  | nil => rfl
  | cons a rest ih =>
      rw [List.filterMap_cons, List.filter_cons]
      cases hfa : f a with
      | none => simpa [hfa] using ih
      | some x => simpa [hfa] using ih

theorem outPairs_eq_nil (l : List OutputVariable) (h : l.length < 2) : outPairs l = [] := by
  match l with
  | [] => rfl
  | [o] => rfl
  | o1 :: o2 :: rest => simp at h; omega

/-! ### Misc engine-level helpers -/

theorem intersections_nil_data (outs : List OutputVariable) (hidden : List String)
    (pvOpt : Option VariableDef) : intersections [] outs hidden pvOpt = [] := by
  cases pvOpt with
  | none => rfl
  | some pv => simp [intersections]

theorem sampleStep_none_of_throw (s : SimulationSchema) (b : Binding)
    (pv : VariableDef) (n i : ℕ) (hf : ∀ ctx, s.jsFormula ctx = none) :
    sampleStep s b pv n i = none := by
  unfold sampleStep
  rw [hf]

/-- C1: for the schema with outputs `A`, `B`, formula
`{A: 2*x, B: -2*x+10}`, sweep `x` from 0 to 10 with resolution `N = 10` and
no hidden line, the intersection pass emits exactly one marker, at `x = 2.5`,
`y = 5` after 2-decimal rounding. -/
theorem c1_two_lines_single_marker :
    (runEngine twoLinesSchema [("x", 0)] 10 []).2 =
      [⟨JSNum.fin (5 / 2), JSNum.fin 5, "Cruce", "#EF4444"⟩] := by
  decide!

/-- C2 counterexample: for the valid declaration `min = max = default = 0`
and resolution `N = 1 > 0`, the loop emits two points whose primary-variable
values are both `0`, so the emitted primary values are not strictly
increasing. -/
theorem c2_counterexample_equal_samples :
    ((generatedData flatSchema [("x", 0)] 1).1.map (fun p => getNum p "x") =
      [JSNum.fin 0, JSNum.fin 0]) ∧
    ¬ List.Chain' (fun p q => (getNum p "x").lt (getNum q "x") = true)
        (generatedData flatSchema [("x", 0)] 1).1 := by
  have hmap : (generatedData flatSchema [("x", 0)] 1).1.map (fun p => getNum p "x") =
      [JSNum.fin 0, JSNum.fin 0] := by decide!
  refine ⟨hmap, fun hch => ?_⟩
  have h2 : List.Chain' (fun a b : JSNum => a.lt b = true) [JSNum.fin 0, JSNum.fin 0] := by
    rw [← hmap]
    exact (List.chain'_map _).mpr hch
  have h3 := (List.chain'_cons.mp h2).1
  simp [JSNum.lt] at h3

/-- C2 (amended): for every schema with a primary variable, every binding and
every `N > 0`, the loop emits at most `N + 1` points — unconditionally, also
when `min = max`.  In addition, the primary-variable values stored in the
emitted points are strictly increasing in emission order provided the raw
step `(max - min) / N` is at least `0.01` (so that the 2-decimal rounding of
`currentX` cannot collapse neighbouring samples) and the formula result never
writes the primary symbol's column. -/
theorem c2_sample_count_and_monotonicity (s : SimulationSchema) (b : Binding)
    (n : ℕ) (pv : VariableDef) (rest : List VariableDef)
    (hind : s.independentVariables = some (pv :: rest))
    (hn : 0 < n) :
    (generatedData s b n).1.length ≤ n + 1 ∧
    ((b.map Prod.fst).Nodup →
      1 / 100 ≤ stepOf pv n →
      (∀ ctx fields, s.jsFormula ctx = some (JSValue.obj fields) →
        ∀ f ∈ fields, f.1 ≠ pv.symbol) →
      numTargetSym (s.outputs.getD []) ≠ pv.symbol →
      List.Chain' (fun p q => (getNum p pv.symbol).lt (getNum q pv.symbol) = true)
        (generatedData s b n).1) := by
  have hdata : (generatedData s b n).1 =
      (List.range (safeCount n + 1)).filterMap (sampleStep s b pv n) := by
    unfold generatedData
    rw [hind]
  have hsafe : safeCount n = n := if_pos hn
  constructor
  · rw [hdata, hsafe]
    calc ((List.range (n + 1)).filterMap (sampleStep s b pv n)).length
        ≤ (List.range (n + 1)).length := List.length_filterMap_le _ _
      _ = n + 1 := List.length_range _
  · intro hb hstep hobj hnum
    rw [hdata]
    refine List.Pairwise.chain' ?_
    refine pairwiseFilterMapIntro _ _ _ ?_
    have hr : List.Pairwise (fun i j => i < j) (List.range (safeCount n + 1)) :=
      List.pairwise_lt_range _
    refine hr.imp ?_
    intro i j hij x hx y hy
    rw [getNum_sampleStep s b pv n i x hb hobj hnum hx,
      getNum_sampleStep s b pv n j y hb hobj hnum hy]
    simp only [JSNum.lt, decide_eq_true_eq]
    exact sampleX_lt_sampleX pv n i j hij hstep

/-- C2 witness: the amended bound and monotonicity at the two-linear-lines
schema with `N = 10`. -/
theorem c2_witness :
    (generatedData twoLinesSchema [("x", 0)] 10).1.length ≤ 10 + 1 ∧
    List.Chain' (fun p q => (getNum p "x").lt (getNum q "x") = true)
      (generatedData twoLinesSchema [("x", 0)] 10).1 := by
  have h := c2_sample_count_and_monotonicity twoLinesSchema [("x", 0)] 10
    ⟨"x", "x", some 0, some 10, 0, 1⟩ [] rfl (by decide)
  refine ⟨h.1, h.2 (by decide) (by decide!) ?_ (by decide)⟩
  intro ctx fields hf
  simp only [twoLinesSchema] at hf
  cases hx : objGet ctx "x" with
  | none => rw [hx] at hf; exact absurd hf (by simp)
  | some q =>
      rw [hx] at hf
      simp only [Option.some_inj, JSValue.obj.injEq] at hf
      intro f hfm
      rw [← hf] at hfm
      rcases List.mem_cons.mp hfm with hfm | hfm
      · rw [hfm]; simp
      · simp only [List.mem_singleton] at hfm
        rw [hfm]; simp

/-- C3: the engine absorbs evaluation failures.  First part: a formula that
throws on every invocation yields an empty dataset and an empty intersection
list (and, the engine being a total function, no exception).  Second part:
failure is per-sample — the dataset has exactly one point for every loop
index whose formula invocation succeeds, so a failing sample is skipped
without affecting the remaining indices. -/
theorem c3_failures_absorbed :
    (∀ (s : SimulationSchema) (b : Binding) (n : ℕ) (hid : List String),
        (∀ ctx, s.jsFormula ctx = none) → runEngine s b n hid = ([], [])) ∧
    (∀ (s : SimulationSchema) (b : Binding) (n : ℕ) (pv : VariableDef)
        (rest : List VariableDef),
        s.independentVariables = some (pv :: rest) →
        (generatedData s b n).1.length =
          ((List.range (safeCount n + 1)).filter
            (fun i => (s.jsFormula (sampleCtx b pv n i)).isSome)).length) := by
  constructor
  · intro s b n hid hf
    have hdata : (generatedData s b n).1 = [] := by
      unfold generatedData
      cases hin : s.independentVariables with
      | none => rfl
      | some l =>
          cases l with
          | nil => rfl
          | cons pv rest =>
              simp only [List.filterMap_eq_nil_iff]
              intro i _
              exact sampleStep_none_of_throw s b pv n i hf
    simp only [runEngine]
    rw [hdata, intersections_nil_data]
  · intro s b n pv rest hind
    have hdata : (generatedData s b n).1 =
        (List.range (safeCount n + 1)).filterMap (sampleStep s b pv n) := by
      unfold generatedData
      rw [hind]
    rw [hdata, lengthFilterMapEqFilter]
    refine congrArg List.length (List.filter_congr ?_)
    intro i _
    exact sampleStep_isSome s b pv n i

/-- C3 witness: the always-throwing schema at `N = 5` gives the empty
results, and the per-index success count equation instantiated there. -/
theorem c3_witness :
    runEngine throwSchema [("x", 0)] 5 [] = ([], []) ∧
    (generatedData throwSchema [("x", 0)] 5).1.length =
      ((List.range (safeCount 5 + 1)).filter
        (fun i => (throwSchema.jsFormula
          (sampleCtx [("x", 0)] ⟨"x", "x", some 0, some 10, 0, 1⟩ 5 i)).isSome)).length :=
  ⟨c3_failures_absorbed.1 throwSchema [("x", 0)] 5 [] (fun _ => rfl),
   c3_failures_absorbed.2 throwSchema [("x", 0)] 5 ⟨"x", "x", some 0, some 10, 0, 1⟩ [] rfl⟩

/-- C4 counterexample: a segment whose second point carries the non-finite
value `Infinity` (not `NaN`) for series `A` is not skipped: the pass emits a
marker (with `y = NaN`, interpolated through the infinity), so "any of the
four values not finite" does not imply a skip. -/
theorem c4_counterexample_infinity_not_skipped :
    getNum infPoint2 "A" = JSNum.inf ∧
    segMarker "x" "A" "B" infPoint1 infPoint2 =
      some ⟨JSNum.fin 0, JSNum.nan, "Cruce", "#EF4444"⟩ ∧
    intersections [infPoint1, infPoint2] [⟨"a", "A"⟩, ⟨"b", "B"⟩] [] (some xVar) ≠ [] := by
  refine ⟨by decide!, by decide!, by decide!⟩

/-- C4 (amended): a segment is skipped — contributes no marker — whenever any
of the four series values read from its two points is `NaN` (an absent column
also reads as `NaN`).  An infinite value does not in itself cause the skip;
in the first point it merely fails the `|diff1| < 1000` guard, while in the
second point a marker can still be emitted. -/
theorem c4_nan_segment_skipped (pSym sA sB : String) (p1 p2 : DataPoint)
    (h : (getNum p1 sA).isNaN = true ∨ (getNum p1 sB).isNaN = true ∨
         (getNum p2 sA).isNaN = true ∨ (getNum p2 sB).isNaN = true) :
    segMarker pSym sA sB p1 p2 = none := by
  unfold segMarker
  rcases h with h | h | h | h <;> simp [h]

/-- C4 witness: the skip at a concrete segment whose first point has
`A = NaN`. -/
theorem c4_witness : segMarker "x" "A" "B" nanPoint1 nanPoint2 = none :=
  c4_nan_segment_skipped "x" "A" "B" nanPoint1 nanPoint2 (Or.inl (by decide))

/-- C5 counterexample: the ingestion fixup does not replace a return-less
formula by `"return 0;"`: the body `"2*x"` (which lacks `return`) becomes
`"return 2*x"`. -/
theorem c5_counterexample_prefix_not_reset :
    hasSubstr "return" "2*x" = false ∧
    fixJsFormula (some "2*x") = "return 2*x" ∧
    fixJsFormula (some "2*x") ≠ "return 0;" := by
  decide

/-- C5 (amended): a non-empty formula body lacking the substring `"return"`
is prefixed with `"return "` (not replaced); only a missing or empty — hence
falsy — formula is replaced by the default `"return 0;"`. -/
theorem c5_missing_return_prefixed (sf : String) :
    (sf ≠ "" → hasSubstr "return" sf = false →
      fixJsFormula (some sf) = "return " ++ sf) ∧
    fixJsFormula none = "return 0;" ∧
    fixJsFormula (some "") = "return 0;" := by
  refine ⟨fun hne hno => ?_, rfl, rfl⟩
  unfold fixJsFormula
  simp [hne, hno]

/-- C5 witness: the prefixing at the concrete body `"2*x"`. -/
theorem c5_witness : fixJsFormula (some "2*x") = "return " ++ "2*x" :=
  (c5_missing_return_prefixed "2*x").1 (by decide) (by decide)

/-- C6: whenever fewer than 2 output series are visible (declared outputs
minus hidden ones), the intersection pass returns the empty list, whatever
the dataset holds: either the all-outputs guard already fires, or the pair
loops have no pair to visit. -/
theorem c6_fewer_than_two_visible (data : List DataPoint)
    (outs : List OutputVariable) (hidden : List String) (pvOpt : Option VariableDef)
    (h : (outs.filter (fun o => !(hidden.contains o.symbol))).length < 2) :
    intersections data outs hidden pvOpt = [] := by
  cases pvOpt with
  | none => rfl
  | some pv =>
      simp only [intersections]
      by_cases hg : data = [] ∨ outs.length < 2
      · rw [if_pos hg]
      · rw [if_neg hg]
        show ((outPairs (List.filter (fun o => !hidden.contains o.symbol) outs)).flatMap
          fun pr => List.filterMap
            (fun pq => segMarker pv.symbol pr.1.symbol pr.2.symbol pq.1 pq.2)
            (data.zip data.tail)) = []
        rw [outPairs_eq_nil _ h]
        rfl

/-- C6 witness: two declared outputs with one hidden leave a single visible
series, and the pass returns no marker on a non-empty dataset. -/
theorem c6_witness :
    intersections [nanPoint2] [⟨"a", "A"⟩, ⟨"b", "B"⟩] ["A"] (some xVar) = [] :=
  c6_fewer_than_two_visible [nanPoint2] [⟨"a", "A"⟩, ⟨"b", "B"⟩] ["A"] (some xVar)
    (by decide)

/-- C7: the engine is deterministic — it is a pure function of the schema
(whose formula is itself embedded as a pure function of the binding, per the
spec's evaluator contract), the variable binding, the resolution and the
hidden-line set, so two invocations on identical inputs return identical
datasets and identical intersection lists. -/
theorem c7_engine_deterministic (s1 s2 : SimulationSchema) (b1 b2 : Binding)
    (n1 n2 : ℕ) (h1 h2 : List String)
    (hs : s1 = s2) (hb : b1 = b2) (hn : n1 = n2) (hh : h1 = h2) :
    runEngine s1 b1 n1 h1 = runEngine s2 b2 n2 h2 := by
  rw [hs, hb, hn, hh]

/-- C7 witness: two identical invocations at a concrete input. -/
theorem c7_witness :
    runEngine twoLinesSchema [("x", 0)] 2 [] = runEngine twoLinesSchema [("x", 0)] 2 [] :=
  c7_engine_deterministic twoLinesSchema twoLinesSchema [("x", 0)] [("x", 0)] 2 2 [] []
    rfl rfl rfl rfl

/-- C8: a schema whose independent-variable list is absent or empty yields an
empty dataset and an empty intersection list (and, the engine being a total
function, no exception). -/
theorem c8_no_independent_variables (s : SimulationSchema) (b : Binding) (n : ℕ)
    (hid : List String)
    (h : s.independentVariables = none ∨ s.independentVariables = some []) :
    runEngine s b n hid = ([], []) := by
  have hdata : generatedData s b n = ([], none, []) := by
    unfold generatedData
    rcases h with h | h <;> rw [h]
  simp only [runEngine]
  rw [hdata]
  rfl

/-- C8 witness: the engine on the schema with no independent variables. -/
theorem c8_witness : runEngine noVarSchema [] 7 [] = ([], []) :=
  c8_no_independent_variables noVarSchema [] 7 [] (Or.inl rfl)

/-- C9: when the formula result is neither a number nor a non-null object,
the sample point is still emitted (not skipped, no error): it is exactly the
context object — the rounded primary value under the primary symbol, every
binding symbol with its bound value — and a key absent from the binding and
different from the primary symbol (in particular an output symbol foreign to
the binding) is absent from the point. -/
theorem c9_other_result_point_emitted (s : SimulationSchema) (b : Binding)
    (pv : VariableDef) (n i : ℕ)
    (hb : (b.map Prod.fst).Nodup)
    (hres : s.jsFormula (sampleCtx b pv n i) = some JSValue.other) :
    sampleStep s b pv n i =
      some (mkPoint pv.symbol (sampleX pv n i) (sampleCtx b pv n i)) ∧
    objGet (mkPoint pv.symbol (sampleX pv n i) (sampleCtx b pv n i)) pv.symbol =
      some (JSNum.fin (sampleX pv n i)) ∧
    (∀ k q, k ≠ pv.symbol → objGet b k = some q →
      objGet (mkPoint pv.symbol (sampleX pv n i) (sampleCtx b pv n i)) k =
        some (JSNum.fin q)) ∧
    (∀ k, k ≠ pv.symbol → objGet b k = none →
      objGet (mkPoint pv.symbol (sampleX pv n i) (sampleCtx b pv n i)) k = none) := by
  refine ⟨?_, ?_, ?_, ?_⟩
  · unfold sampleStep
    rw [hres]
    rfl
  · exact objGet_mkPoint_self _ _ _ (objSet_forced b pv.symbol _ hb)
  · intro k q hk hbk
    refine objGet_mkPoint_ne _ _ _ _ _ hk ?_ (objSet_keys_nodup _ _ _ hb)
    unfold sampleCtx
    rw [objGet_objSet_ne _ _ _ _ hk, hbk]
  · intro k hk hbk
    refine objGet_mkPoint_none _ _ _ _ hk ?_
    unfold sampleCtx
    rw [objGet_objSet_ne _ _ _ _ hk, hbk]

/-- C9 witness: the string-returning schema, with binding `{a: 3}`: the point
is emitted, holds `x` and `a`, and has no column for the declared output
symbol `F`. -/
theorem c9_witness :
    sampleStep strSchema [("a", 3)] ⟨"x", "x", some 0, some 10, 0, 1⟩ 1 0 =
      some (mkPoint "x" (sampleX ⟨"x", "x", some 0, some 10, 0, 1⟩ 1 0)
        (sampleCtx [("a", 3)] ⟨"x", "x", some 0, some 10, 0, 1⟩ 1 0)) ∧
    objGet (mkPoint "x" (sampleX ⟨"x", "x", some 0, some 10, 0, 1⟩ 1 0)
        (sampleCtx [("a", 3)] ⟨"x", "x", some 0, some 10, 0, 1⟩ 1 0)) "x" =
      some (JSNum.fin (sampleX ⟨"x", "x", some 0, some 10, 0, 1⟩ 1 0)) ∧
    objGet (mkPoint "x" (sampleX ⟨"x", "x", some 0, some 10, 0, 1⟩ 1 0)
        (sampleCtx [("a", 3)] ⟨"x", "x", some 0, some 10, 0, 1⟩ 1 0)) "a" =
      some (JSNum.fin 3) ∧
    objGet (mkPoint "x" (sampleX ⟨"x", "x", some 0, some 10, 0, 1⟩ 1 0)
        (sampleCtx [("a", 3)] ⟨"x", "x", some 0, some 10, 0, 1⟩ 1 0)) "F" = none := by
  have h := c9_other_result_point_emitted strSchema [("a", 3)]
    ⟨"x", "x", some 0, some 10, 0, 1⟩ 1 0 (by decide) rfl
  exact ⟨h.1, h.2.1, h.2.2.1 "a" 3 (by decide) (by decide!), h.2.2.2 "F" (by decide) (by decide!)⟩

/-- C10 counterexample: a schema declaring one output whose symbol is the
empty string: the numeric result is not stored under that declared symbol —
the `""` column is absent — but under the fallback key `'y'` (the source
computes `outs[0]?.symbol || 'y'` and `""` is falsy). -/
theorem c10_counterexample_empty_symbol :
    ((generatedData emptySymSchema [("x", 0)] 1).1.map
      (fun p => (objGet p "", objGet p "y"))) =
      [(none, some (JSNum.fin 7)), (none, some (JSNum.fin 7))] := by
  decide!

/-- C10 (amended): a bare numeric result is stored under the fixed key `'y'`
when the schema declares no outputs, and under the first declared output's
symbol when that symbol is non-empty; a declared first output with the empty
string as symbol also falls back to `'y'`. -/
theorem c10_numeric_result_storage (s : SimulationSchema) (b : Binding)
    (pv : VariableDef) (n i : ℕ) (v : JSNum) (pt : DataPoint)
    (hres : s.jsFormula (sampleCtx b pv n i) = some (JSValue.num v))
    (hstep : sampleStep s b pv n i = some pt) :
    (s.outputs.getD [] = [] → objGet pt "y" = some v.round4) ∧
    (∀ o os, s.outputs.getD [] = o :: os → o.symbol ≠ "" →
      objGet pt o.symbol = some v.round4) ∧
    (∀ o os, s.outputs.getD [] = o :: os → o.symbol = "" →
      objGet pt "y" = some v.round4) := by
  unfold sampleStep at hstep
  rw [hres] at hstep
  have hpt : pt = objSet (mkPoint pv.symbol (sampleX pv n i) (sampleCtx b pv n i))
      (numTargetSym (s.outputs.getD [])) v.round4 := (Option.some_inj.mp hstep).symm
  refine ⟨fun ho => ?_, fun o os ho hsym => ?_, fun o os ho hsym => ?_⟩
  · rw [hpt, ho]
    exact objGet_objSet_self _ _ _
  · rw [hpt, ho]
    simp only [numTargetSym]
    rw [if_neg hsym]
    exact objGet_objSet_self _ _ _
  · rw [hpt, ho]
    simp only [numTargetSym]
    rw [if_pos hsym]
    exact objGet_objSet_self _ _ _

/-- C10 witness: with no declared outputs the numeric result 7 lands under
`'y'` in the emitted point. -/
theorem c10_witness :
    objGet [("x", JSNum.fin 0), ("y", JSNum.fin 7)] "y" =
      some ((JSNum.fin 7).round4) :=
  (c10_numeric_result_storage noOutSchema [("x", 0)] ⟨"x", "x", some 0, some 0, 0, 1⟩
    1 0 (JSNum.fin 7) [("x", JSNum.fin 0), ("y", JSNum.fin 7)] rfl (by decide!)).1 rfl
